import Mathlib

/-!
Verification of the email MCP server (`src/email_client/server.py`).

The development shallowly embeds the server's pure logic in Lean:

* a calendar-date model for Python's `datetime` / `timedelta` arithmetic and the
  `strftime` formats `%d-%b-%Y` and `%Y-%m-%d` used by the server (the `%Y`
  specifier is modelled as the usual 4-digit zero-padded year);
* `buildDatePredicate` / `buildSearchCriteria`, the search-criteria
  construction of the `search-emails` branch of `handle_call_tool`
  (lines 354-380), including its unbound-variable failure path: the source
  assigns `end_date_obj` only in the explicit-`end_date` branch, so the
  multi-day branch raises `UnboundLocalError` when `end_date` was defaulted;
* `extractBody` / `format_email_content`, the multipart body-selection walk
  (lines 55-81); a part is a content type together with `Option String`,
  where `none` models a payload whose bytes fail to decode (the source's
  `.decode()` raising on that part);
* `search_emails_async` (the `MAX_EMAILS` cap, lines 83-98),
  `send_email_async` (sender resolution and SMTP session fields,
  lines 118-174), and `dailyLoop`, the `count-daily-emails` per-day loop
  (lines 446-471);
* `handle_call_tool`, the dispatcher, at the level of the network effects it
  performs and the textual reply it produces.  Exceptions that the source
  catches at the top of the dispatcher and renders as `Error: ...` text are
  modelled by the `PyErr` type inside `HandlerResult.errorReply`.
-/

/-- Python truthiness-based `a or b` for an optional string `a`:
`None` and the empty string fall through to `b`. -/
def pyOrStr (a : Option String) (b : String) : String :=
  match a with
  | none => b
  | some s => if s = "" then b else s

/-- An optional string that Python considers falsy: absent, or empty. -/
def pyFalsyStr (a : Option String) : Prop := a = none ∨ a = some ""

/-! ## Calendar dates: Python `datetime` arithmetic and `strftime` formats -/

/-- A calendar date, as carried by Python `datetime` values (time-of-day is
irrelevant to the server's predicate construction). -/
structure Date where
  year : Nat
  month : Nat
  day : Nat
deriving DecidableEq

/-- Gregorian leap-year rule, as implemented by Python's `datetime`. -/
def isLeap (y : Nat) : Bool := (y % 4 == 0 && y % 100 != 0) || (y % 400 == 0)

/-- Number of days of month `m` of year `y`; `0` for out-of-range months. -/
def daysInMonth (y : Nat) : Nat → Nat
  | 2 => if isLeap y then 29 else 28
  | 4 | 6 | 9 | 11 => 30
  | 1 | 3 | 5 | 7 | 8 | 10 | 12 => 31
  | _ => 0

/-- The dates representable by Python `datetime` (we leave the year unbounded
above; `strftime` lemmas that need 4-digit years take that bound separately). -/
def Date.valid (d : Date) : Prop :=
  1 ≤ d.year ∧ 1 ≤ d.month ∧ d.month ≤ 12 ∧ 1 ≤ d.day ∧ d.day ≤ daysInMonth d.year d.month

instance (d : Date) : Decidable d.valid := by
  unfold Date.valid
  infer_instance

theorem daysInMonth_le_31 (y m : Nat) : daysInMonth y m ≤ 31 := by
  unfold daysInMonth
  split <;> try omega
  split <;> omega

theorem one_le_daysInMonth (y m : Nat) (h1 : 1 ≤ m) (h2 : m ≤ 12) :
    1 ≤ daysInMonth y m := by
  unfold daysInMonth
  split <;> try omega
  · split <;> omega
  · simp only [imp_false] at *
    omega

/-- Python `d + timedelta(days=1)`: the calendar successor. -/
def nextDay (d : Date) : Date :=
  if d.day < daysInMonth d.year d.month then ⟨d.year, d.month, d.day + 1⟩
  else if d.month < 12 then ⟨d.year, d.month + 1, 1⟩
  else ⟨d.year + 1, 1, 1⟩

/-- Python `d - timedelta(days=1)`: the calendar predecessor. -/
def prevDay (d : Date) : Date :=
  if 1 < d.day then ⟨d.year, d.month, d.day - 1⟩
  else if 1 < d.month then ⟨d.year, d.month - 1, daysInMonth d.year (d.month - 1)⟩
  else ⟨d.year - 1, 12, 31⟩

/-- Python `d - timedelta(days=n)`. -/
def subDays (d : Date) : Nat → Date
  | 0 => d
  | n + 1 => subDays (prevDay d) n

/-- Python `d + timedelta(days=n)`. -/
def addDays (d : Date) : Nat → Date
  | 0 => d
  | n + 1 => addDays (nextDay d) n

/-- Days in year `y` that precede month `m` (cumulative month lengths). -/
def daysBeforeMonth (y : Nat) : Nat → Nat
  | 0 => 0
  | m + 1 => daysBeforeMonth y m + daysInMonth y m

/-- Total days of year `y`. -/
def daysInYear (y : Nat) : Nat := daysBeforeMonth y 13

/-- Days in years `0, …, y-1`. -/
def daysBeforeYear : Nat → Nat
  | 0 => 0
  | y + 1 => daysBeforeYear y + daysInYear y

/-- Ordinal of a date: a day count that is strictly monotone in the calendar
order and increases by exactly one under `nextDay`. -/
def dateOrd (d : Date) : Nat :=
  daysBeforeYear d.year + daysBeforeMonth d.year d.month + d.day

/-- Strict lexicographic order on dates, matching Python `datetime <`. -/
def dateLtP (a b : Date) : Prop :=
  a.year < b.year ∨
    (a.year = b.year ∧ (a.month < b.month ∨ (a.month = b.month ∧ a.day < b.day)))

instance (a b : Date) : Decidable (dateLtP a b) := by
  unfold dateLtP
  infer_instance

/-- Boolean `a <= b` on dates, matching Python `datetime <=` (the
`count-daily-emails` loop condition `current_date <= end_date`). -/
def dateLeB (a b : Date) : Bool :=
  decide (a.year < b.year ∨
    (a.year = b.year ∧ (a.month < b.month ∨ (a.month = b.month ∧ a.day ≤ b.day))))

theorem daysBeforeMonth_mono (y : Nat) {m k : Nat} (h : m ≤ k) :
    daysBeforeMonth y m ≤ daysBeforeMonth y k := by
  induction k with
  | zero =>
    have : m = 0 := by omega
    subst this
    exact Nat.le_refl _
  | succ k ih =>
    rcases Nat.eq_or_lt_of_le h with rfl | h2
    · exact Nat.le_refl _
    · have h3 := ih (by omega)
      have h4 : daysBeforeMonth y (k + 1) = daysBeforeMonth y k + daysInMonth y k := rfl
      omega

theorem daysBeforeYear_mono {m k : Nat} (h : m ≤ k) :
    daysBeforeYear m ≤ daysBeforeYear k := by
  induction k with
  | zero =>
    have : m = 0 := by omega
    subst this
    exact Nat.le_refl _
  | succ k ih =>
    rcases Nat.eq_or_lt_of_le h with rfl | h2
    · exact Nat.le_refl _
    · have h3 := ih (by omega)
      have h4 : daysBeforeYear (k + 1) = daysBeforeYear k + daysInYear k := rfl
      omega

theorem daysBeforeMonth_day_le (y m day : Nat) (hm : m ≤ 12)
    (hd : day ≤ daysInMonth y m) :
    daysBeforeMonth y m + day ≤ daysInYear y := by
  have h1 : daysBeforeMonth y (m + 1) = daysBeforeMonth y m + daysInMonth y m := rfl
  have h2 : daysBeforeMonth y (m + 1) ≤ daysBeforeMonth y 13 :=
    daysBeforeMonth_mono y (by omega)
  unfold daysInYear
  omega

/-- The ordinal `dateOrd` is strictly monotone with respect to the calendar order. -/
theorem dateOrd_lt_of_dateLtP {a b : Date} (ha : a.valid) (hb : b.valid)
    (h : dateLtP a b) : dateOrd a < dateOrd b := by
  obtain ⟨hya, hma1, hma2, hda1, hda2⟩ := ha
  obtain ⟨hyb, hmb1, hmb2, hdb1, hdb2⟩ := hb
  unfold dateOrd
  rcases h with h1 | ⟨h1, h2 | ⟨h2, h3⟩⟩
  · have b1 : daysBeforeMonth a.year a.month + a.day ≤ daysInYear a.year :=
      daysBeforeMonth_day_le a.year a.month a.day hma2 hda2
    have b2 : daysBeforeYear (a.year + 1) = daysBeforeYear a.year + daysInYear a.year := rfl
    have b3 : daysBeforeYear (a.year + 1) ≤ daysBeforeYear b.year :=
      daysBeforeYear_mono (by omega)
    have b4 : (0 : Nat) ≤ daysBeforeMonth b.year b.month := Nat.zero_le _
    omega
  · rw [h1]
    have b1 : daysBeforeMonth b.year (a.month + 1) =
        daysBeforeMonth b.year a.month + daysInMonth b.year a.month := rfl
    have b2 : daysBeforeMonth b.year (a.month + 1) ≤ daysBeforeMonth b.year b.month :=
      daysBeforeMonth_mono b.year (by omega)
    have hda2b : a.day ≤ daysInMonth b.year a.month := by rw [← h1]; exact hda2
    omega
  · rw [h1, h2]
    omega

/-- The comparison `dateLeB` agrees with the ordinal comparison on valid dates. -/
theorem dateLeB_iff {a b : Date} (ha : a.valid) (hb : b.valid) :
    dateLeB a b = true ↔ dateOrd a ≤ dateOrd b := by
  constructor
  · intro h
    rw [dateLeB, decide_eq_true_eq] at h
    rcases h with h1 | ⟨h1, h2 | ⟨h2, h3⟩⟩
    · exact Nat.le_of_lt (dateOrd_lt_of_dateLtP ha hb (Or.inl h1))
    · exact Nat.le_of_lt (dateOrd_lt_of_dateLtP ha hb (Or.inr ⟨h1, Or.inl h2⟩))
    · rcases Nat.eq_or_lt_of_le h3 with h4 | h4
      · have : a = b := by
          cases a
          cases b
          simp_all
        rw [this]
      · exact Nat.le_of_lt (dateOrd_lt_of_dateLtP ha hb (Or.inr ⟨h1, Or.inr ⟨h2, h4⟩⟩))
  · intro h
    by_contra hfalse
    rw [dateLeB, decide_eq_true_eq] at hfalse
    have hlt : dateLtP b a := by
      unfold dateLtP
      rcases Nat.lt_trichotomy a.year b.year with h1 | h1 | h1
      · exact absurd (Or.inl h1) hfalse
      · rcases Nat.lt_trichotomy a.month b.month with h2 | h2 | h2
        · exact absurd (Or.inr ⟨h1, Or.inl h2⟩) hfalse
        · rcases Nat.lt_trichotomy a.day b.day with h3 | h3 | h3
          · exact absurd (Or.inr ⟨h1, Or.inr ⟨h2, Nat.le_of_lt h3⟩⟩) hfalse
          · exact absurd (Or.inr ⟨h1, Or.inr ⟨h2, Nat.le_of_eq h3⟩⟩) hfalse
          · exact Or.inr ⟨h1.symm, Or.inr ⟨h2.symm, h3⟩⟩
        · exact Or.inr ⟨h1.symm, Or.inl h2⟩
      · exact Or.inl h1
    have := dateOrd_lt_of_dateLtP hb ha hlt
    omega

/-- Stepping with `nextDay` advances the ordinal by exactly one on valid dates. -/
theorem dateOrd_nextDay {d : Date} (h : d.valid) :
    dateOrd (nextDay d) = dateOrd d + 1 := by
  obtain ⟨hy, hm1, hm2, hd1, hd2⟩ := h
  unfold nextDay
  split
  · show daysBeforeYear d.year + daysBeforeMonth d.year d.month + (d.day + 1) =
      daysBeforeYear d.year + daysBeforeMonth d.year d.month + d.day + 1
    omega
  · split
    · rename_i hnotlt hmlt
      have hdeq : d.day = daysInMonth d.year d.month := by omega
      show daysBeforeYear d.year + daysBeforeMonth d.year (d.month + 1) + 1 =
        daysBeforeYear d.year + daysBeforeMonth d.year d.month + d.day + 1
      have b1 : daysBeforeMonth d.year (d.month + 1) =
          daysBeforeMonth d.year d.month + daysInMonth d.year d.month := rfl
      omega
    · rename_i hnotlt hnotm
      have hmeq : d.month = 12 := by omega
      have hdim : daysInMonth d.year 12 = 31 := rfl
      have hdeq : d.day = 31 := by
        rw [hmeq, hdim] at hd2 hnotlt
        omega
      show daysBeforeYear (d.year + 1) + daysBeforeMonth (d.year + 1) 1 + 1 =
        daysBeforeYear d.year + daysBeforeMonth d.year d.month + d.day + 1
      have b1 : daysBeforeYear (d.year + 1) = daysBeforeYear d.year + daysInYear d.year := rfl
      have b2 : daysInYear d.year = daysBeforeMonth d.year 12 + daysInMonth d.year 12 := rfl
      have b3 : daysBeforeMonth (d.year + 1) 1 = 0 := rfl
      rw [hmeq, hdeq]
      omega

/-- Stepping with `nextDay` preserves validity. -/
theorem valid_nextDay {d : Date} (h : d.valid) : (nextDay d).valid := by
  obtain ⟨hy, hm1, hm2, hd1, hd2⟩ := h
  unfold nextDay
  split
  · exact ⟨hy, hm1, hm2, by show 1 ≤ d.day + 1; omega,
      by show d.day + 1 ≤ daysInMonth d.year d.month; omega⟩
  · split
    · refine ⟨hy, by show 1 ≤ d.month + 1; omega, by show d.month + 1 ≤ 12; omega,
        by show (1 : Nat) ≤ 1; omega, ?_⟩
      exact one_le_daysInMonth d.year (d.month + 1) (by omega) (by omega)
    · refine ⟨by show 1 ≤ d.year + 1; omega, by show (1 : Nat) ≤ 1; omega,
        by show (1 : Nat) ≤ 12; omega, by show (1 : Nat) ≤ 1; omega, ?_⟩
      show (1 : Nat) ≤ daysInMonth (d.year + 1) 1
      have : daysInMonth (d.year + 1) 1 = 31 := rfl
      omega

/-! ## `strftime` formats -/

/-- Two-digit zero-padded decimal (`%d`, `%m`); exact for numbers below 100. -/
def pad2 (n : Nat) : String :=
  ⟨[Nat.digitChar (n / 10 % 10), Nat.digitChar (n % 10)]⟩

/-- Four-digit zero-padded decimal (`%Y`); exact for numbers below 10000. -/
def pad4 (n : Nat) : String :=
  ⟨[Nat.digitChar (n / 1000 % 10), Nat.digitChar (n / 100 % 10),
    Nat.digitChar (n / 10 % 10), Nat.digitChar (n % 10)]⟩

/-- Format `%b`: the abbreviated month name. -/
def monthAbbr : Nat → String
  | 1 => "Jan" | 2 => "Feb" | 3 => "Mar" | 4 => "Apr" | 5 => "May" | 6 => "Jun"
  | 7 => "Jul" | 8 => "Aug" | 9 => "Sep" | 10 => "Oct" | 11 => "Nov" | 12 => "Dec"
  | _ => ""

/-- Format `strftime("%d-%b-%Y")`, the IMAP date format used in search predicates. -/
def fmtDate (d : Date) : String :=
  pad2 d.day ++ "-" ++ monthAbbr d.month ++ "-" ++ pad4 d.year

/-- Format `strftime("%Y-%m-%d")`, the format of the `count-daily-emails` rows. -/
def isoFmt (d : Date) : String :=
  pad4 d.year ++ "-" ++ pad2 d.month ++ "-" ++ pad2 d.day

theorem digitChar_inj :
    ∀ x, x < 10 → ∀ y, y < 10 → Nat.digitChar x = Nat.digitChar y → x = y := by
  decide

theorem monthAbbr_data_inj :
    ∀ m, m < 13 → ∀ k, k < 13 → 1 ≤ m → 1 ≤ k →
      (monthAbbr m).data = (monthAbbr k).data → m = k := by
  decide

theorem monthAbbr_data_length :
    ∀ m, m < 13 → 1 ≤ m → (monthAbbr m).data.length = 3 := by
  decide

theorem pad2_inj {a b : Nat} (ha : a < 100) (hb : b < 100)
    (h1 : Nat.digitChar (a / 10 % 10) = Nat.digitChar (b / 10 % 10))
    (h2 : Nat.digitChar (a % 10) = Nat.digitChar (b % 10)) : a = b := by
  have e1 := digitChar_inj (a / 10 % 10) (by omega) (b / 10 % 10) (by omega) h1
  have e2 := digitChar_inj (a % 10) (by omega) (b % 10) (by omega) h2
  omega

theorem pad4_inj {a b : Nat} (ha : a < 10000) (hb : b < 10000)
    (h1 : Nat.digitChar (a / 1000 % 10) = Nat.digitChar (b / 1000 % 10))
    (h2 : Nat.digitChar (a / 100 % 10) = Nat.digitChar (b / 100 % 10))
    (h3 : Nat.digitChar (a / 10 % 10) = Nat.digitChar (b / 10 % 10))
    (h4 : Nat.digitChar (a % 10) = Nat.digitChar (b % 10)) : a = b := by
  have e1 := digitChar_inj (a / 1000 % 10) (by omega) (b / 1000 % 10) (by omega) h1
  have e2 := digitChar_inj (a / 100 % 10) (by omega) (b / 100 % 10) (by omega) h2
  have e3 := digitChar_inj (a / 10 % 10) (by omega) (b / 10 % 10) (by omega) h3
  have e4 := digitChar_inj (a % 10) (by omega) (b % 10) (by omega) h4
  omega

/-- The format `fmtDate` is injective on valid dates with 4-digit years, so the source's
comparison of formatted date strings agrees with comparison of the dates. -/
theorem fmtDate_inj {a b : Date} (ha : a.valid) (hb : b.valid)
    (hya : a.year ≤ 9999) (hyb : b.year ≤ 9999)
    (h : fmtDate a = fmtDate b) : a = b := by
  obtain ⟨hy1, hm1, hm2, hd1, hd2⟩ := ha
  obtain ⟨hy1b, hm1b, hm2b, hd1b, hd2b⟩ := hb
  have hdata := congrArg String.data h
  have expand : ∀ d : Date, (fmtDate d).data =
      Nat.digitChar (d.day / 10 % 10) :: Nat.digitChar (d.day % 10) :: '-' ::
        ((monthAbbr d.month).data ++ '-' ::
          [Nat.digitChar (d.year / 1000 % 10), Nat.digitChar (d.year / 100 % 10),
           Nat.digitChar (d.year / 10 % 10), Nat.digitChar (d.year % 10)]) := by
    intro d
    show (pad2 d.day ++ "-" ++ monthAbbr d.month ++ "-" ++ pad4 d.year).data = _
    simp [String.data_append, pad2, pad4]
  rw [expand a, expand b] at hdata
  simp only [List.cons.injEq] at hdata
  obtain ⟨e1, e2, _, erest⟩ := hdata
  have hlen : (monthAbbr a.month).data.length = (monthAbbr b.month).data.length := by
    rw [monthAbbr_data_length a.month (by omega) hm1,
      monthAbbr_data_length b.month (by omega) hm1b]
  obtain ⟨emon, etail⟩ := List.append_inj erest hlen
  simp only [List.cons.injEq] at etail
  obtain ⟨_, y1, y2, y3, y4, _⟩ := etail
  have hday : a.day = b.day := by
    have h31a := daysInMonth_le_31 a.year a.month
    have h31b := daysInMonth_le_31 b.year b.month
    exact pad2_inj (by omega) (by omega) e1 e2
  have hmon : a.month = b.month :=
    monthAbbr_data_inj a.month (by omega) b.month (by omega) hm1 hm1b emon
  have hyear : a.year = b.year := pad4_inj (by omega) (by omega) y1 y2 y3 y4
  cases a
  cases b
  simp_all

/-- The order `dateLtP` is irreflexive. -/
theorem dateLtP_irrefl (d : Date) : ¬ dateLtP d d := by
  unfold dateLtP
  omega

/-! ## Failure modes rendered by the dispatcher's top-level handler -/

/-- The exceptions the source can raise on the paths modelled here.  The
dispatcher's top-level `except` renders them as `Error: ...` text. -/
inductive PyErr
  /-- Python `UnboundLocalError` for a variable referenced before assignment. -/
  | unboundLocal (varName : String)
  /-- a part payload whose bytes fail to decode as text. -/
  | decodeFailure
  /-- Python `KeyError` on a required argument. -/
  | keyMissing (key : String)
  /-- Python `ValueError` from `strptime` on a malformed or invalid date string. -/
  | invalidDate (which : String)
  /-- Python `ValueError` for a tool name the dispatcher does not know. -/
  | unknownTool (toolName : String)
deriving DecidableEq

deriving instance DecidableEq for Except

/-! ## Search criteria construction (`handle_call_tool`, lines 354-380) -/

/-- Date-range predicate of the `search-emails` branch.  Absent arguments take
the source's defaults (`now - 7 days`, `now`).  The source converts the
explicit `end_date` to `end_date_obj` "once" and reuses it to compute the
exclusive upper bound; when `end_date` was absent, `end_date_obj` is never
assigned, so the multi-day branch raises `UnboundLocalError`. -/
def buildDatePredicate (startArg endArg : Option Date) (now : Date) :
    Except PyErr String :=
  let startStr := match startArg with
    | none => fmtDate (subDays now 7)
    | some d => fmtDate d
  match endArg with
  | none =>
    if startStr = fmtDate now then Except.ok ("ON \"" ++ startStr ++ "\"")
    else Except.error (PyErr.unboundLocal "end_date_obj")
  | some e =>
    if startStr = fmtDate e then Except.ok ("ON \"" ++ startStr ++ "\"")
    else Except.ok ("SINCE \"" ++ startStr ++ "\" BEFORE \"" ++ fmtDate (nextDay e) ++ "\"")

/-- Full search criteria: the date predicate, wrapped together with the
subject/body keyword disjunction when a (truthy) keyword is given. -/
def buildSearchCriteria (startArg endArg : Option Date) (keyword : Option String)
    (now : Date) : Except PyErr String :=
  match buildDatePredicate startArg endArg now with
  | .error e => .error e
  | .ok datePred =>
    match keyword with
    | some kw =>
      if kw = "" then .ok datePred
      else .ok ("((OR SUBJECT \"" ++ kw ++ "\" BODY \"" ++ kw ++ "\") " ++ datePred ++ ")")
    | none => .ok datePred

/-! ## Message parsing (`format_email_content`, lines 55-81) -/

/-- One part of a message, in `walk()` order: its content type and its decoded
payload text, `none` when the payload's bytes fail to decode (in the source,
`part.get_payload(decode=True).decode()` raises for that part). -/
structure EmailPart where
  contentType : String
  decoded : Option String
deriving DecidableEq

/-- The body extraction loop of `format_email_content` for a multipart
message: walk the parts, return the first `text/plain` payload (`break`);
record a `text/html` payload only while the accumulated body is still empty. -/
def extractBody : List EmailPart → String → Except PyErr String
  | [], body => .ok body
  | p :: rest, body =>
    if p.contentType = "text/plain" then
      match p.decoded with
      | some s => .ok s
      | none => .error PyErr.decodeFailure
    else if p.contentType = "text/html" then
      if body = "" then
        match p.decoded with
        | some s => extractBody rest s
        | none => .error PyErr.decodeFailure
      else extractBody rest body
    else extractBody rest body

/-- A message body as fetched: multipart with its `walk()` part list, or a
single payload. -/
inductive MsgBody
  | multi (parts : List EmailPart)
  | single (decoded : Option String)
deriving DecidableEq

/-- Body selection for a whole message. -/
def extractBodyOfMsg : MsgBody → Except PyErr String
  | .multi parts => extractBody parts ""
  | .single (some s) => .ok s
  | .single none => .error PyErr.decodeFailure

/-- A fetched raw message: headers (absent ones take the source's fallbacks)
plus the body. -/
structure FetchedMsg where
  headerFrom : Option String
  headerTo : Option String
  headerDate : Option String
  headerSubject : Option String
  body : MsgBody
deriving DecidableEq

/-- The full-content record built by `format_email_content`. -/
structure EmailContent where
  fromText : String
  toText : String
  dateText : String
  subjectText : String
  content : String
deriving DecidableEq

/-- The source's `format_email_content`: headers with fallbacks, body per `extractBody`.
An undecodable payload propagates as an error (there is no per-part handler
in the source). -/
def format_email_content (m : FetchedMsg) : Except PyErr EmailContent :=
  match extractBodyOfMsg m.body with
  | .error e => .error e
  | .ok b =>
    .ok { fromText := m.headerFrom.getD "Unknown",
          toText := m.headerTo.getD "Unknown",
          dateText := m.headerDate.getD "Unknown",
          subjectText := m.headerSubject.getD "No Subject",
          content := b }

/-- The first `text/plain` part of a walk, if any. -/
def firstPlain (parts : List EmailPart) : Option EmailPart :=
  parts.find? (fun p => decide (p.contentType = "text/plain"))

/-- The first `text/html` part whose decoded text is nonempty, if any. -/
def firstHtmlNonempty (parts : List EmailPart) : Option EmailPart :=
  parts.find? (fun p => decide (p.contentType = "text/html" ∧ p.decoded.getD "" ≠ ""))

/-- The body an all-successfully-decoding walk with no `text/plain` part
produces: the text of the first `text/html` part with nonempty text, else
the empty string. -/
def htmlFold (parts : List EmailPart) : String :=
  match firstHtmlNonempty parts with
  | some q => q.decoded.getD ""
  | none => ""

/-! ## Summary fetching (`search_emails_async`, lines 83-98) -/

/-- Cap on fetched search results (line 40 of the source). -/
def MAX_EMAILS : Nat := 100

/-- A summary record (`format_email_summary`). -/
structure EmailSummary where
  id : String
  fromText : String
  dateText : String
  subjectText : String
deriving DecidableEq

/-- The source's `search_emails_async`: given the id list of the server's search response,
fetch and summarise at most `MAX_EMAILS` of them (`[:MAX_EMAILS]`). -/
def search_emails_async (ids : List String) (fetchSummary : String → EmailSummary) :
    List EmailSummary :=
  if ids = [] then []
  else (ids.take MAX_EMAILS).map fetchSummary

/-! ## Sending (`send_email_async`, lines 118-174) -/

/-- The process-wide `EMAIL_CONFIG` (lines 28-36). -/
structure EmailConfig where
  username : String
  password : String
  name : String
  default_email : Option String
  imap_server : String
  smtp_server : String
  smtp_port : Nat
deriving DecidableEq

/-- Everything `send_email_async` hands to the submission protocol: the
connection target, the login credentials, the composed message headers and
body, and the envelope. -/
structure SmtpSession where
  host : String
  port : Nat
  loginUser : String
  loginPass : String
  headerFrom : String
  headerTo : String
  headerCc : Option String
  headerSubject : String
  bodyText : String
  envelopeFrom : String
  envelopeRecipients : List String
deriving DecidableEq

/-- The source's `send_email_async`: resolve the visible sender with
`sender_email or EMAIL_CONFIG["default_email"] or EMAIL_CONFIG["username"]`
(and the display name likewise), compose the message, and log in with the
configured `username` / `password`. -/
def send_email_async (cfg : EmailConfig) (to_addresses : List String)
    (subject content : String) (cc_addresses : List String)
    (sender_email sender_name : Option String) : SmtpSession :=
  let from_email := pyOrStr sender_email (pyOrStr cfg.default_email cfg.username)
  let from_name := pyOrStr sender_name cfg.name
  { host := cfg.smtp_server,
    port := cfg.smtp_port,
    loginUser := cfg.username,
    loginPass := cfg.password,
    headerFrom := from_name ++ " <" ++ from_email ++ ">",
    headerTo := String.intercalate ", " to_addresses,
    headerCc := if cc_addresses = [] then none
                else some (String.intercalate ", " cc_addresses),
    headerSubject := subject,
    bodyText := content,
    envelopeFrom := from_email,
    envelopeRecipients := to_addresses ++ cc_addresses }

/-! ## Daily counts (`count-daily-emails` branch, lines 446-471) -/

/-- One row of the `count-daily-emails` result: the `(ON "...")` criteria the
day's count query was issued with, the rendered date, and the rendered count
(`Timeout` when the day's query exceeded the deadline). -/
structure DayRow where
  criteria : String
  dateText : String
  countText : String
deriving DecidableEq

/-- One iteration's work: issue the day's count query (`none` models a per-day
timeout) and render the row. -/
def dayRow (query : String → Option Nat) (d : Date) : DayRow :=
  let crit := "(ON \"" ++ fmtDate d ++ "\")"
  { criteria := crit,
    dateText := isoFmt d,
    countText := match query crit with
                 | some c => Nat.repr c
                 | none => "Timeout" }

/-- The `while current_date <= end_date` loop: one count query and one row per
calendar day, advancing by `timedelta(days=1)`.  The validity arguments mirror
the guarantee of `strptime`, which only ever produces real calendar dates. -/
def dailyLoop (query : String → Option Nat) (endD : Date) (he : endD.valid)
    (current : Date) (hc : current.valid) : List DayRow :=
  if hLe : dateLeB current endD = true then
    dayRow query current :: dailyLoop query endD he (nextDay current) (valid_nextDay hc)
  else []
termination_by dateOrd endD + 1 - dateOrd current
decreasing_by
  have h1 : dateOrd current ≤ dateOrd endD := (dateLeB_iff hc he).mp hLe
  have h2 : dateOrd (nextDay current) = dateOrd current + 1 := dateOrd_nextDay hc
  omega

/-! ## The dispatcher (`handle_call_tool`, lines 279-486) -/

/-- A network operation the dispatcher performs, in order. -/
inductive NetEffect
  | imapConnect (host : String)
  | imapLogin (user password : String)
  | imapSelect (mailbox : String)
  | imapSearch (criteria : String)
  | imapFetch (id : String)
  | smtpSend (session : SmtpSession)
deriving DecidableEq

/-- The `arguments` mapping, after JSON-schema validation, with the `get`
defaults the source uses.  Date arguments are carried as parsed dates; the
`strptime` validation step is modelled by the `Date.valid` checks where the
source parses. -/
structure ToolArgs where
  toAddrs : List String := []
  subject : String := ""
  content : String := ""
  cc : List String := []
  sender_email : Option String := none
  sender_name : Option String := none
  folder : Option String := none
  start_date : Option Date := none
  end_date : Option Date := none
  keyword : Option String := none
  email_id : Option String := none

/-- The mailbox/server state the dispatcher's network calls observe:
the id list a search returns, the summary and message a fetch returns, and
each count query's result (`none` models a per-day timeout). -/
structure MailEnv where
  searchResult : String → List String
  fetchSummary : String → EmailSummary
  fetchMsg : String → FetchedMsg
  countResult : String → Option Nat

/-- What one invocation returns: a normal text reply, or the `Error: ...`
text the top-level `except` renders for an escaped exception. -/
inductive HandlerResult
  | reply (text : String)
  | errorReply (e : PyErr)
deriving DecidableEq

/-- A run of `n` dashes (the source's `"-" * n` separators). -/
def dashes (n : Nat) : String := ⟨List.replicate n '-'⟩

/-- The `search-emails` result table (lines 394-402). -/
def renderSummaries (l : List EmailSummary) : String :=
  "Found emails:\n\nID | From | Date | Subject\n" ++ dashes 80 ++ "\n" ++
    String.join (l.map fun e =>
      e.id ++ " | " ++ e.fromText ++ " | " ++ e.dateText ++ " | " ++ e.subjectText ++ "\n") ++
    "\nUse get-email-content with an email ID to view the full content of a specific email."

/-- The `get-email-content` result block (lines 427-433). -/
def renderContent (c : EmailContent) : String :=
  "From: " ++ c.fromText ++ "\nTo: " ++ c.toText ++ "\nDate: " ++ c.dateText ++
    "\nSubject: " ++ c.subjectText ++ "\n\nContent:\n" ++ c.content

/-- The `count-daily-emails` result table (lines 450-464). -/
def renderCounts (rows : List DayRow) : String :=
  "Daily email counts:\n\nDate | Count\n" ++ dashes 30 ++ "\n" ++
    String.join (rows.map fun r => r.dateText ++ " | " ++ r.countText ++ "\n")

/-- The source's `handle_call_tool`, at the level of the network effects performed (in
order) and the result returned.  A `None` arguments object is replaced by the
empty mapping first (lines 287-288).  The `send-email` branch returns before
the IMAP connection is opened; every other branch connects and logs in
(lines 338-339) before doing its own work. -/
def handle_call_tool_body (cfg : EmailConfig) (env : MailEnv) (now : Date)
    (toolName : String) (args : ToolArgs) :
    List NetEffect × HandlerResult :=
  if toolName = "send-email" then
    if args.toAddrs = [] then
      ([], .reply "At least one recipient email address is required.")
    else
      let sess := send_email_async cfg args.toAddrs args.subject args.content args.cc
        args.sender_email args.sender_name
      ([.smtpSend sess],
       .reply ("Email sent successfully from " ++ pyOrStr args.sender_name cfg.name ++
         " <" ++ pyOrStr args.sender_email (pyOrStr cfg.default_email cfg.username) ++
         ">! Check email_client.log for detailed logs."))
  else
    let pre : List NetEffect := [.imapConnect cfg.imap_server,
      .imapLogin cfg.username cfg.password]
    if toolName = "search-emails" then
      let folderVal := args.folder.getD "inbox"
      let selectEff := if folderVal = "sent" then NetEffect.imapSelect "\"[Gmail]/Sent Mail\""
                       else NetEffect.imapSelect "inbox"
      match buildSearchCriteria args.start_date args.end_date args.keyword now with
      | .error e => (pre ++ [selectEff], .errorReply e)
      | .ok crit =>
        let ids := env.searchResult crit
        let fetchEffs := if ids = [] then []
                         else (ids.take MAX_EMAILS).map NetEffect.imapFetch
        let summaries := search_emails_async ids env.fetchSummary
        (pre ++ [selectEff, .imapSearch crit] ++ fetchEffs,
         if summaries = [] then .reply "No emails found matching the criteria."
         else .reply (renderSummaries summaries))
    else if toolName = "get-email-content" then
      match args.email_id with
      | none => (pre, .reply "Email ID is required.")
      | some eid =>
        if eid = "" then (pre, .reply "Email ID is required.")
        else
          match format_email_content (env.fetchMsg eid) with
          | .error e => (pre ++ [.imapFetch eid], .errorReply e)
          | .ok c => (pre ++ [.imapFetch eid], .reply (renderContent c))
    else if toolName = "count-daily-emails" then
      match args.start_date, args.end_date with
      | some s, some e =>
        if hs : s.valid then
          if he : e.valid then
            let rows := dailyLoop env.countResult e he s hs
            (pre ++ rows.map (fun r => NetEffect.imapSearch r.criteria),
             .reply (renderCounts rows))
          else (pre, .errorReply (.invalidDate "end_date"))
        else (pre, .errorReply (.invalidDate "start_date"))
      | _, _ => (pre, .errorReply (.keyMissing "start_date/end_date"))
    else (pre, .errorReply (.unknownTool toolName))

/-- Lines 287-288: a falsy `arguments` object is replaced by the empty
mapping before dispatch. -/
def handle_call_tool (cfg : EmailConfig) (env : MailEnv) (now : Date)
    (toolName : String) (arguments : Option ToolArgs) :
    List NetEffect × HandlerResult :=
  handle_call_tool_body cfg env now toolName (arguments.getD {})

/-! ## Claim C1: sender resolution vs. authentication -/

/-- C1: for every send-email request the visible From address is resolved by
the chain sender_email override (if truthy), else the configured default
send-as address (if configured truthy), else the authenticating account — and
the submission-protocol login always uses the configured account and secret,
regardless of any sender_email/sender_name override. -/
theorem send_sender_resolution (cfg : EmailConfig) (to_addresses : List String)
    (subject content : String) (cc_addresses : List String)
    (sender_email sender_name : Option String) :
    ((send_email_async cfg to_addresses subject content cc_addresses
        sender_email sender_name).loginUser = cfg.username ∧
     (send_email_async cfg to_addresses subject content cc_addresses
        sender_email sender_name).loginPass = cfg.password) ∧
    (∀ a, sender_email = some a → a ≠ "" →
      (send_email_async cfg to_addresses subject content cc_addresses
        sender_email sender_name).headerFrom =
        pyOrStr sender_name cfg.name ++ " <" ++ a ++ ">") ∧
    (pyFalsyStr sender_email → ∀ d, cfg.default_email = some d → d ≠ "" →
      (send_email_async cfg to_addresses subject content cc_addresses
        sender_email sender_name).headerFrom =
        pyOrStr sender_name cfg.name ++ " <" ++ d ++ ">") ∧
    (pyFalsyStr sender_email → pyFalsyStr cfg.default_email →
      (send_email_async cfg to_addresses subject content cc_addresses
        sender_email sender_name).headerFrom =
        pyOrStr sender_name cfg.name ++ " <" ++ cfg.username ++ ">") := by
  refine ⟨⟨rfl, rfl⟩, ?_, ?_, ?_⟩
  · rintro a rfl ha
    simp [send_email_async, pyOrStr, ha]
  · rintro (rfl | rfl) d hd hdne <;> simp [send_email_async, pyOrStr, hd, hdne]
  · rintro (rfl | rfl) (h2 | h2) <;> simp [send_email_async, pyOrStr, h2]

/-- An example service configuration, used to instantiate the theorems. -/
def cfgEx : EmailConfig :=
  { username := "svc@example.com", password := "secret", name := "Service Name",
    default_email := some "sendas@example.com", imap_server := "imap.example.com",
    smtp_server := "smtp.example.com", smtp_port := 587 }

/-- Witness for C1: with no override and a configured default send-as address,
the visible From is the default address while login uses the auth account. -/
theorem send_sender_resolution_witness :
    (send_email_async cfgEx ["a@x.com"] "Hi" "Hello" [] none none).loginUser =
      "svc@example.com" ∧
    (send_email_async cfgEx ["a@x.com"] "Hi" "Hello" [] none none).loginPass =
      "secret" ∧
    (send_email_async cfgEx ["a@x.com"] "Hi" "Hello" [] none none).headerFrom =
      "Service Name <sendas@example.com>" := by
  have h := send_sender_resolution cfgEx ["a@x.com"] "Hi" "Hello" [] none none
  refine ⟨h.1.1, h.1.2, ?_⟩
  have h3 := h.2.2.1 (Or.inl rfl) "sendas@example.com" rfl (by decide)
  rw [h3]
  decide

/-! ## Claim C2: date-range predicate -/

/-- C2: with both dates explicit, an equal start and end yields the single-day
`ON` predicate, and a start strictly before the end yields
`SINCE start BEFORE (end + 1 day)` — the end date incremented by one calendar
day, making the window inclusive of the end date. -/
theorem search_criteria_date_branches (s e now : Date) (hs : s.valid) (he : e.valid)
    (hys : s.year ≤ 9999) (hye : e.year ≤ 9999) :
    (s = e → buildDatePredicate (some s) (some e) now =
      .ok ("ON \"" ++ fmtDate s ++ "\"")) ∧
    (dateLtP s e → buildDatePredicate (some s) (some e) now =
      .ok ("SINCE \"" ++ fmtDate s ++ "\" BEFORE \"" ++ fmtDate (nextDay e) ++ "\"")) := by
  constructor
  · rintro rfl
    simp [buildDatePredicate]
  · intro hlt
    have hne : ¬ (fmtDate s = fmtDate e) := by
      intro hEq
      have heq := fmtDate_inj hs he hys hye hEq
      subst heq
      exact dateLtP_irrefl s hlt
    simp [buildDatePredicate, hne]

/-- Witness for C2, matching the spec's examples: a same-day search yields
`ON "01-Jan-2024"`, and Jan 1 – Jan 3 yields
`SINCE "01-Jan-2024" BEFORE "04-Jan-2024"`. -/
theorem search_criteria_date_branches_witness :
    buildDatePredicate (some ⟨2024, 1, 1⟩) (some ⟨2024, 1, 1⟩) ⟨2024, 6, 15⟩ =
      .ok "ON \"01-Jan-2024\"" ∧
    buildDatePredicate (some ⟨2024, 1, 1⟩) (some ⟨2024, 1, 3⟩) ⟨2024, 6, 15⟩ =
      .ok "SINCE \"01-Jan-2024\" BEFORE \"04-Jan-2024\"" := by
  constructor
  · have h := (search_criteria_date_branches ⟨2024, 1, 1⟩ ⟨2024, 1, 1⟩ ⟨2024, 6, 15⟩
      (by decide) (by decide) (by decide) (by decide)).1 rfl
    rw [h]
    decide
  · have h := (search_criteria_date_branches ⟨2024, 1, 1⟩ ⟨2024, 1, 3⟩ ⟨2024, 6, 15⟩
      (by decide) (by decide) (by decide) (by decide)).2 (by decide)
    rw [h]
    decide

/-! ## Claim C3: defaulted dates (code bug) -/

/-- C3 (code bug): when `end_date` is absent the source defaults it to `now`
(and an absent `start_date` to `now - 7 days`), but the multi-day branch then
references `end_date_obj`, which was only assigned in the explicit-`end_date`
branch — an `UnboundLocalError`.  So a defaulted end date reaches a predicate
only in the single-day case; a search over the default 7-day window fails. -/
theorem default_dates_unbound_local :
    buildDatePredicate none none ⟨2024, 6, 15⟩ =
      .error (.unboundLocal "end_date_obj") ∧
    buildDatePredicate (some ⟨2024, 6, 8⟩) none ⟨2024, 6, 15⟩ =
      .error (.unboundLocal "end_date_obj") ∧
    buildDatePredicate (some ⟨2024, 6, 15⟩) none ⟨2024, 6, 15⟩ =
      .ok "ON \"15-Jun-2024\"" :=
  ⟨rfl, rfl, rfl⟩

/-! ## Claim C4: keyword wrapping -/

/-- C4: whenever a (truthy) keyword is given and the date predicate was built,
the criteria are a single top-level parenthesised group holding the
`(OR SUBJECT .. BODY ..)` disjunction followed by the date predicate, with no
explicit AND token. -/
theorem keyword_wrapping (startArg endArg : Option Date) (kw : String) (now : Date)
    (datePred : String) (hkw : kw ≠ "")
    (hdp : buildDatePredicate startArg endArg now = .ok datePred) :
    buildSearchCriteria startArg endArg (some kw) now =
      .ok ("((OR SUBJECT \"" ++ kw ++ "\" BODY \"" ++ kw ++ "\") " ++ datePred ++ ")") := by
  unfold buildSearchCriteria
  rw [hdp]
  simp [hkw]

/-- Witness for C4, matching the spec's example: searching Jan 1 – Jan 3 for
"invoice" yields
`((OR SUBJECT "invoice" BODY "invoice") SINCE "01-Jan-2024" BEFORE "04-Jan-2024")`. -/
theorem keyword_wrapping_witness :
    buildSearchCriteria (some ⟨2024, 1, 1⟩) (some ⟨2024, 1, 3⟩) (some "invoice")
      ⟨2024, 6, 15⟩ =
      .ok "((OR SUBJECT \"invoice\" BODY \"invoice\") SINCE \"01-Jan-2024\" BEFORE \"04-Jan-2024\")" := by
  have h := keyword_wrapping (some ⟨2024, 1, 1⟩) (some ⟨2024, 1, 3⟩) "invoice"
    ⟨2024, 6, 15⟩ "SINCE \"01-Jan-2024\" BEFORE \"04-Jan-2024\"" (by decide) rfl
  rw [h]
  decide

/-! ## Claim C5: multipart body selection -/

/-- When the walk contains a `text/plain` part and every payload decodes, the
body is the first `text/plain` part's text, whatever preceded it. -/
theorem extractBody_firstPlain :
    ∀ (parts : List EmailPart) (p : EmailPart),
      (∀ q ∈ parts, q.decoded.isSome) → firstPlain parts = some p →
      ∀ body, extractBody parts body = .ok (p.decoded.getD "") := by
  intro parts
  induction parts with
  | nil =>
    intro p hdec hp body
    simp [firstPlain] at hp
  | cons q rest ih =>
    intro p hdec hp body
    by_cases hq : q.contentType = "text/plain"
    · have hfind : firstPlain (q :: rest) = some q := by
        unfold firstPlain
        rw [List.find?_cons_of_pos]
        simp [hq]
      rw [hfind] at hp
      injection hp with h
      subst h
      obtain ⟨s, hs⟩ := Option.isSome_iff_exists.mp (hdec q (List.mem_cons_self q rest))
      simp [extractBody, hq, hs]
    · have hrest : firstPlain rest = some p := by
        unfold firstPlain at hp ⊢
        rwa [List.find?_cons_of_neg] at hp
        simp [hq]
      have hdecr : ∀ r ∈ rest, r.decoded.isSome :=
        fun r hr => hdec r (List.mem_cons_of_mem q hr)
      by_cases hh : q.contentType = "text/html"
      · by_cases hb : body = ""
        · obtain ⟨s, hs⟩ := Option.isSome_iff_exists.mp (hdec q (List.mem_cons_self q rest))
          simp only [extractBody]
          rw [if_neg hq, if_pos hh, if_pos hb, hs]
          exact ih p hdecr hrest s
        · simp only [extractBody]
          rw [if_neg hq, if_pos hh, if_neg hb]
          exact ih p hdecr hrest body
      · simp only [extractBody]
        rw [if_neg hq, if_neg hh]
        exact ih p hdecr hrest body

/-- When the walk contains no `text/plain` part and every payload decodes, the
result is the first nonempty `text/html` text (or the accumulated body when it
was already nonempty). -/
theorem extractBody_noPlain :
    ∀ (parts : List EmailPart),
      (∀ q ∈ parts, q.decoded.isSome) → firstPlain parts = none →
      ∀ body, extractBody parts body =
        .ok (if body = "" then htmlFold parts else body) := by
  intro parts
  induction parts with
  | nil =>
    intro hdec hp body
    simp only [extractBody]
    split
    · rename_i hb
      rw [hb]
      rfl
    · rfl
  | cons q rest ih =>
    intro hdec hp body
    have hq : ¬ q.contentType = "text/plain" := by
      intro h
      unfold firstPlain at hp
      rw [List.find?_cons_of_pos] at hp
      · cases hp
      · simp [h]
    have hrest : firstPlain rest = none := by
      unfold firstPlain at hp ⊢
      rwa [List.find?_cons_of_neg] at hp
      simp [hq]
    have hdecr : ∀ r ∈ rest, r.decoded.isSome :=
      fun r hr => hdec r (List.mem_cons_of_mem q hr)
    by_cases hh : q.contentType = "text/html"
    · by_cases hb : body = ""
      · obtain ⟨s, hs⟩ := Option.isSome_iff_exists.mp (hdec q (List.mem_cons_self q rest))
        simp only [extractBody]
        rw [if_neg hq, if_pos hh, if_pos hb, hs]
        show extractBody rest s = _
        rw [ih hdecr hrest s]
        rw [if_pos hb]
        by_cases hse : s = ""
        · rw [if_pos hse]
          have hskip : firstHtmlNonempty (q :: rest) = firstHtmlNonempty rest := by
            unfold firstHtmlNonempty
            rw [List.find?_cons_of_neg]
            simp [hs, hse]
          simp [htmlFold, hskip]
        · rw [if_neg hse]
          have hhit : firstHtmlNonempty (q :: rest) = some q := by
            unfold firstHtmlNonempty
            rw [List.find?_cons_of_pos]
            simp [hh, hs, hse]
          simp [htmlFold, hhit, hs]
      · simp only [extractBody]
        rw [if_neg hq, if_pos hh, if_neg hb]
        rw [ih hdecr hrest body, if_neg hb, if_neg hb]
    · simp only [extractBody]
      rw [if_neg hq, if_neg hh]
      rw [ih hdecr hrest body]
      have hskip : firstHtmlNonempty (q :: rest) = firstHtmlNonempty rest := by
        unfold firstHtmlNonempty
        rw [List.find?_cons_of_neg]
        simp [hh]
      simp [htmlFold, hskip]

/-- C5: for a multipart message whose payloads all decode, the chosen body is
the first `text/plain` part's text whenever any `text/plain` part exists —
regardless of where `text/html` parts appear — and `text/html` text is
returned only when no `text/plain` part exists in the entire walk. -/
theorem multipart_body_selection (parts : List EmailPart)
    (hdec : ∀ q ∈ parts, q.decoded.isSome) :
    (∀ p, firstPlain parts = some p →
      extractBody parts "" = .ok (p.decoded.getD "")) ∧
    (firstPlain parts = none → extractBody parts "" = .ok (htmlFold parts)) := by
  constructor
  · intro p hp
    exact extractBody_firstPlain parts p hdec hp ""
  · intro hp
    rw [extractBody_noPlain parts hdec hp ""]
    rw [if_pos rfl]

/-- Witness for C5: with an HTML part before the plain part, plain still wins;
with only an HTML part, its text is returned. -/
theorem multipart_body_selection_witness :
    extractBody [⟨"text/html", some "H"⟩, ⟨"text/plain", some "P"⟩] "" = .ok "P" ∧
    extractBody [⟨"text/html", some "H"⟩] "" = .ok "H" := by
  constructor
  · have h := (multipart_body_selection
      [⟨"text/html", some "H"⟩, ⟨"text/plain", some "P"⟩] (by decide)).1
      ⟨"text/plain", some "P"⟩ (by decide)
    rw [h]
    decide
  · have h := (multipart_body_selection [⟨"text/html", some "H"⟩] (by decide)).2
      (by decide)
    rw [h]
    decide

/-! ## Claim C6: decode failures (corrected) -/

/-- Counterexample to C6 as stated: a message whose only part is a
`text/plain` part that fails to decode makes the whole parse error out — the
source has no per-part handler, so no content record is produced (the claim
said the part would be treated as the empty string and a record returned). -/
theorem decode_failure_counterexample :
    format_email_content ⟨some "A", some "B", some "C", some "S",
      .multi [⟨"text/plain", none⟩]⟩ = .error PyErr.decodeFailure := rfl

/-- C6 as amended: a decode failure on an examined candidate part aborts the
whole parse.  In particular, whenever the first `text/plain` part of the walk
fails to decode, `extractBody` returns an error — either from that part or
from an undecodable `text/html` candidate reached before it — and the
dispatcher renders an error message instead of a content record. -/
theorem decode_failure_aborts :
    ∀ (parts : List EmailPart) (p : EmailPart),
      firstPlain parts = some p → p.decoded = none →
      ∀ body, extractBody parts body = .error PyErr.decodeFailure := by
  intro parts
  induction parts with
  | nil =>
    intro p hp hfail body
    simp [firstPlain] at hp
  | cons q rest ih =>
    intro p hp hfail body
    by_cases hq : q.contentType = "text/plain"
    · have hfind : firstPlain (q :: rest) = some q := by
        unfold firstPlain
        rw [List.find?_cons_of_pos]
        simp [hq]
      rw [hfind] at hp
      injection hp with h
      subst h
      simp [extractBody, hq, hfail]
    · have hrest : firstPlain rest = some p := by
        unfold firstPlain at hp ⊢
        rwa [List.find?_cons_of_neg] at hp
        simp [hq]
      by_cases hh : q.contentType = "text/html"
      · by_cases hb : body = ""
        · cases hqd : q.decoded with
          | none =>
            simp [extractBody, hq, hh, hb, hqd]
          | some s =>
            simp only [extractBody]
            rw [if_neg hq, if_pos hh, if_pos hb, hqd]
            exact ih p hrest hfail s
        · simp only [extractBody]
          rw [if_neg hq, if_pos hh, if_neg hb]
          exact ih p hrest hfail body
      · simp only [extractBody]
        rw [if_neg hq, if_neg hh]
        exact ih p hrest hfail body

/-- Witness for the amended C6: an undecodable `text/plain` part after a good
HTML part still aborts the parse with an error. -/
theorem decode_failure_aborts_witness :
    extractBody [⟨"text/html", some "H"⟩, ⟨"text/plain", none⟩] "" =
      .error PyErr.decodeFailure :=
  decode_failure_aborts [⟨"text/html", some "H"⟩, ⟨"text/plain", none⟩]
    ⟨"text/plain", none⟩ (by decide) rfl ""

/-! ## Claim C7: result cap -/

/-- C7: a search produces at most `MAX_EMAILS` (100) summaries, however many
matching ids the server's search response lists. -/
theorem search_result_capped (ids : List String)
    (fetchSummary : String → EmailSummary) :
    (search_emails_async ids fetchSummary).length ≤ MAX_EMAILS := by
  unfold search_emails_async
  split
  · simp
  · simp only [List.length_map, List.length_take]
    omega

/-! ## Claim C8: daily count loop -/

/-- The loop unrolled: starting `n` days before the end of the range produces
exactly the rows of the `n`-element ascending day range. -/
theorem dailyLoop_range (query : String → Option Nat) (endD : Date) (he : endD.valid) :
    ∀ (n : Nat) (current : Date) (hc : current.valid),
      dateOrd endD + 1 - dateOrd current = n →
      dailyLoop query endD he current hc =
        (List.range n).map (fun i => dayRow query (addDays current i)) := by
  intro n
  induction n with
  | zero =>
    intro current hc hn
    have hfalse : ¬ dateLeB current endD = true := by
      intro htrue
      have := (dateLeB_iff hc he).mp htrue
      omega
    rw [dailyLoop]
    rw [dif_neg hfalse]
    rfl
  | succ n ih =>
    intro current hc hn
    have hle : dateOrd current ≤ dateOrd endD := by omega
    have hb : dateLeB current endD = true := (dateLeB_iff hc he).mpr hle
    rw [dailyLoop]
    rw [dif_pos hb]
    have h2 : dateOrd (nextDay current) = dateOrd current + 1 := dateOrd_nextDay hc
    rw [ih (nextDay current) (valid_nextDay hc) (by omega)]
    rw [List.range_succ_eq_map]
    simp only [List.map_cons, List.map_map]
    congr 1

/-- C8: over a valid range with start not after end, the loop issues exactly
`(end − start) + 1` count queries — one `ON`-predicate query per calendar day,
ascending — and produces exactly that many rows; a day whose query times out
(`none`) gets the `Timeout` sentinel in its own row only, and the loop
continues with the next day. -/
theorem daily_counts_spec (query : String → Option Nat) (s e : Date)
    (hs : s.valid) (he : e.valid) (hle : dateLeB s e = true) :
    dailyLoop query e he s hs =
      (List.range (dateOrd e - dateOrd s + 1)).map
        (fun i => dayRow query (addDays s i)) ∧
    (dailyLoop query e he s hs).length = dateOrd e - dateOrd s + 1 := by
  have hord := (dateLeB_iff hs he).mp hle
  have h := dailyLoop_range query e he (dateOrd e + 1 - dateOrd s) s hs rfl
  have hn : dateOrd e + 1 - dateOrd s = dateOrd e - dateOrd s + 1 := by omega
  rw [hn] at h
  refine ⟨h, ?_⟩
  rw [h]
  simp

/-- A count-query oracle for the witness: the 29-Feb-0004 query times out,
every other day has five messages. -/
def qEx : String → Option Nat :=
  fun c => if c = "(ON \"29-Feb-0004\")" then none else some 5

/-- Witness for C8: a three-day leap-year range produces exactly three rows in
ascending order, with `Timeout` only in the middle day's row. -/
theorem daily_counts_spec_witness :
    dailyLoop qEx ⟨4, 3, 1⟩ (by decide) ⟨4, 2, 28⟩ (by decide) =
      [⟨"(ON \"28-Feb-0004\")", "0004-02-28", "5"⟩,
       ⟨"(ON \"29-Feb-0004\")", "0004-02-29", "Timeout"⟩,
       ⟨"(ON \"01-Mar-0004\")", "0004-03-01", "5"⟩] := by
  have h := (daily_counts_spec qEx ⟨4, 2, 28⟩ ⟨4, 3, 1⟩ (by decide) (by decide)
    (by decide)).1
  rw [h]
  decide

/-! ## Claim C9: validation short-circuits (corrected) -/

/-- An example mailbox environment, used to instantiate the theorems. -/
def envEx : MailEnv :=
  { searchResult := fun _ => [],
    fetchSummary := fun i => ⟨i, "f@x", "today", "subj"⟩,
    fetchMsg := fun _ => ⟨none, none, none, none, .multi []⟩,
    countResult := fun _ => some 0 }

/-- Counterexample to C9 as stated: a `get-email-content` call with a missing
`email_id` does return the validation text, but the IMAP connection and login
have already been performed — the source connects (lines 338-339) before the
`email_id` check (line 417), so the short-circuit is not before all network
calls. -/
theorem validation_network_counterexample :
    (handle_call_tool cfgEx envEx ⟨2024, 6, 15⟩ "get-email-content" (some {})).1 =
      [.imapConnect "imap.example.com", .imapLogin "svc@example.com" "secret"] ∧
    (handle_call_tool cfgEx envEx ⟨2024, 6, 15⟩ "get-email-content" (some {})).2 =
      .reply "Email ID is required." :=
  ⟨rfl, rfl⟩

/-- C9 as amended: a `send-email` call with an empty recipient list
short-circuits with user-facing text before any network call; a
`get-email-content` call with a missing `email_id` also returns user-facing
validation text, but only after the IMAP connection and login have been made
(no search or fetch is performed). -/
theorem validation_short_circuit (cfg : EmailConfig) (env : MailEnv) (now : Date)
    (args : ToolArgs) :
    (args.toAddrs = [] → handle_call_tool cfg env now "send-email" (some args) =
      ([], .reply "At least one recipient email address is required.")) ∧
    (args.email_id = none → handle_call_tool cfg env now "get-email-content" (some args) =
      ([.imapConnect cfg.imap_server, .imapLogin cfg.username cfg.password],
        .reply "Email ID is required.")) := by
  constructor
  · intro h
    simp [handle_call_tool, handle_call_tool_body, h]
  · intro h
    simp [handle_call_tool, handle_call_tool_body, h]

/-- Witness for the amended C9 at concrete inputs. -/
theorem validation_short_circuit_witness :
    handle_call_tool cfgEx envEx ⟨2024, 6, 15⟩ "send-email" (some {}) =
      ([], .reply "At least one recipient email address is required.") ∧
    handle_call_tool cfgEx envEx ⟨2024, 6, 15⟩ "get-email-content" (some {}) =
      ([.imapConnect "imap.example.com", .imapLogin "svc@example.com" "secret"],
        .reply "Email ID is required.") := by
  have h := validation_short_circuit cfgEx envEx ⟨2024, 6, 15⟩ {}
  refine ⟨h.1 rfl, ?_⟩
  have h2 := h.2 rfl
  rw [h2]
  rfl

/-! ## Claim C10: absent arguments object (code bug in the example) -/

/-- C10: an absent (`None`) arguments object is replaced by the empty mapping,
so every tool behaves exactly as if called with explicitly empty arguments and
optional parameters take their defaults.  However, the claim's example —
`search-emails` with no arguments searching the inbox over the default date
window — does not hold: the defaulted window hits the `end_date_obj`
`UnboundLocalError` (see C3), so that invocation returns an error after
selecting the inbox, without searching. -/
theorem none_arguments_as_empty (cfg : EmailConfig) (env : MailEnv) (now : Date)
    (toolName : String) :
    handle_call_tool cfg env now toolName none =
      handle_call_tool cfg env now toolName (some {}) ∧
    (handle_call_tool cfgEx envEx ⟨2024, 6, 15⟩ "search-emails" none).2 =
      .errorReply (.unboundLocal "end_date_obj") := by
  constructor
  · rfl
  · decide
